import Mathlib

/-!
Verification of the nio-llm Matrix chat-bot core: the message-admission
filter chain, the bounded conversation history, prompt assembly, response
post-processing, and the typing-indicator (heartbeat) discipline of
`LLMClient.message_callback`.

The repository contains three revisions of the client:
* `src/src/nio_llm/client.py` — the latest revision ("V2" below): openai
  chat API, a background `typing_loop` task as heartbeat, read markers.
* `src/nio_llm/client.py` — the middle revision ("Mid" below): local
  llama.cpp call, inline typing on/off, a 512-token overflow check.
* `src/nio-llm/client.py` — the earliest revision ("E" below): no
  history, no thread filter, self-check first.

Python semantics are modelled shallowly: strings are Lean `String`s,
Python `str.strip` / `str.removeprefix` / substring `in` are re-defined
below, dict-key presence is modelled with `Option` fields, a raised
exception is an `escaped` error value that aborts the rest of the
callback, and the awaited collaborators (openai / llama / tokenizer) are
parameters of the callback functions.  Timestamps are integers
(`event.server_timestamp` is an integer; `spawn_time` enters only through
the order comparison, so modelling it as an integer preserves every
comparison outcome for integer-valued spawn times).
-/

namespace NioLLM

/-- Python `str.removeprefix p s`: drop `p` from the front of `s` when it
is a prefix, otherwise return `s` unchanged. -/
def pyRemovePre (p s : String) : String :=
  if p.data.isPrefixOf s.data then String.mk (s.data.drop p.data.length) else s

/-- Leading-whitespace removal on character lists. -/
def stripL (l : List Char) : List Char := l.dropWhile Char.isWhitespace

/-- Trailing-whitespace removal on character lists. -/
def stripR (l : List Char) : List Char := (l.reverse.dropWhile Char.isWhitespace).reverse

/-- Python `str.strip()` (no argument): remove leading and trailing
whitespace. -/
def pyStrip (s : String) : String := String.mk (stripR (stripL s.data))

/-- Contiguous-sublist test on character lists. -/
def isInfixChars (n : List Char) : List Char → Bool
  | [] => n.isPrefixOf []
  | c :: t => n.isPrefixOf (c :: t) || isInfixChars n t

/-- Python substring test `needle in hay`. -/
def pyIn (needle hay : String) : Bool := isInfixChars needle.data hay.data

/-- The value found under `"rel_type"` in the `"m.relates_to"` dict of an
event's content, `none` when the key is absent. -/
structure RelatesTo where
  relType : Option String
  deriving DecidableEq

/-- The structured `event.source["content"]` dict, restricted to the keys
the client inspects.  `Option` encodes key presence. -/
structure Content where
  hasNewContent : Bool
  relatesTo : Option RelatesTo
  format : Option String
  formattedBody : Option String
  deriving DecidableEq

/-- A `RoomMessageText` event as the callback consumes it. -/
structure Event where
  sender : String
  body : String
  serverTimestamp : Int
  eventId : String
  content : Content
  deriving DecidableEq

/-- The fields of `LLMClient` the callback reads.  `uid` is
`"@username:server"`; nio's `AsyncClient.__init__` stores it as
`self.user`, so the code's `event.sender == self.user` compares against
`uid`. -/
structure ClientState where
  uid : String
  username : String
  room : String
  spawnTime : Int
  preprompt : String
  historySize : Nat
  history : List Event
  deriving DecidableEq

/-- Python exceptions that the modelled code can raise. -/
inductive PyErr where
  | keyError
  | completionError
  deriving DecidableEq

/-- `deque(maxlen := n)` append: add at the tail, evicting from the head
whatever exceeds the capacity `n`. -/
def recordEvent (n : Nat) (h : List Event) (e : Event) : List Event :=
  let h2 := h ++ [e]
  if n < h2.length then h2.drop (h2.length - n) else h2

/-- The literal mention anchor the client searches for:
`<a href="https://matrix.to/#/UID">USERNAME</a>`. -/
def mentionAnchor (uid username : String) : String :=
  "<a href=\"https://matrix.to/#/" ++ uid ++ "\">" ++ username ++ "</a>"

/-- The mention test shared by all revisions: `"format"` and
`"formatted_body"` keys present, format equal to
`"org.matrix.custom.html"`, and the anchor a substring of the formatted
body.  Missing keys short-circuit to `false` (the `and` chain guards each
access). -/
def hasMention (uid username : String) (c : Content) : Bool :=
  match c.format, c.formattedBody with
  | some f, some fb => f == "org.matrix.custom.html" && pyIn (mentionAnchor uid username) fb
  | _, _ => false

/-- Latest-revision thread test: `"m.relates_to" in content and
"rel_type" in content["m.relates_to"] and ... == "m.thread"`.  Every
access is guarded, so missing keys give `false`. -/
def isThreadV2 (c : Content) : Bool :=
  match c.relatesTo with
  | some r =>
    match r.relType with
    | some t => t == "m.thread"
    | none => false
  | none => false

/-- Middle-revision thread test: `"m.relates_to" in content and
content["m.relates_to"]["rel_type"] == "m.thread"`.  The inner access is
not guarded: a present `m.relates_to` without a `rel_type` key raises
`KeyError`. -/
def isThreadMid (c : Content) : Except PyErr Bool :=
  match c.relatesTo with
  | some r =>
    match r.relType with
    | some t => Except.ok (t == "m.thread")
    | none => Except.error PyErr.keyError
  | none => Except.ok false

/-- The spec's admission classification. -/
inductive AdmissionDecision where
  | Ignore
  | RecordOnly
  | RecordAndRespond
  deriving DecidableEq

/-- The latest revision's filter chain as a pure classification: the
early-`return` guards of `message_callback` in source order.  Events that
are recorded but answered with no reply (self-authored, or no mention)
are `RecordOnly`; a surviving mention is `RecordAndRespond`. -/
def admission (c : ClientState) (roomId : String) (e : Event) : AdmissionDecision :=
  if e.serverTimestamp < c.spawnTime then .Ignore
  else if roomId ≠ c.room then .Ignore
  else if e.content.hasNewContent then .Ignore
  else if isThreadV2 e.content then .Ignore
  else if e.sender = c.uid then .RecordOnly
  else if hasMention c.uid c.username e.content then .RecordAndRespond
  else .RecordOnly

/-- The earliest revision's filter chain (`src/nio-llm/client.py`): the
self-check comes first, there is no thread filter and no history, and a
non-mentioned event is simply dropped. -/
def admissionEarliest (c : ClientState) (roomId : String) (e : Event) : AdmissionDecision :=
  if e.sender = c.uid then .Ignore
  else if e.serverTimestamp < c.spawnTime then .Ignore
  else if roomId ≠ c.room then .Ignore
  else if e.content.hasNewContent then .Ignore
  else if hasMention c.uid c.username e.content then .RecordAndRespond
  else .Ignore

/-- Chat roles of the openai messages payload. -/
inductive Role where
  | system
  | user
  | assistant
  deriving DecidableEq

/-- One `{"content": ..., "role": ...}` entry of the messages payload. -/
structure ChatMsg where
  role : Role
  content : String
  deriving DecidableEq

/-- The payload of `openai.ChatCompletion.acreate` as assembled by the
latest revision (temperature and max-tokens are forwarded unchanged and
carry no logic, so they are elided). -/
structure ChatRequest where
  messages : List ChatMsg
  stop : List String
  deriving DecidableEq

/-- One history entry turned into a chat message:
role `assistant` when the sender is the bot itself, else `user`;
content `"SENDER: BODY"`. -/
def chatTurn (uid : String) (m : Event) : ChatMsg :=
  { role := if m.sender == uid then .assistant else .user
    content := m.sender ++ ": " ++ m.body }

/-- The full messages list: the system preprompt followed by one turn per
history entry, in history order. -/
def chatMessages (c : ClientState) (hist : List Event) : List ChatMsg :=
  { role := Role.system, content := c.preprompt } :: hist.map (chatTurn c.uid)

/-- The latest revision's completion request. -/
def chatRequest (c : ClientState) (hist : List Event) : ChatRequest :=
  { messages := chatMessages c hist, stop := ["<|im_end|>"] }

/-- Latest-revision response post-processing:
`output.strip().removeprefix(uid ++ ":").strip()`. -/
def postV2 (uid raw : String) : String :=
  pyStrip (pyRemovePre (uid ++ ":") (pyStrip raw))

/-- Observable collaborator calls of one callback run, in order. -/
inductive Action where
  | heartbeatStart
  | typingOn
  | typingOff
  | heartbeatStop
  | readMarkers (fullyRead readEvt : String)
  | completionCall (req : ChatRequest)
  | llmCall (prompt : String)
  | sendMessage (msgtype body : String)
  deriving DecidableEq

/-- Typing-state assertions sent to the room collaborator
(`room_typing(room, True/False)`). -/
def isTypingAssertion : Action → Bool
  | .typingOn => true
  | .typingOff => true
  | _ => false

/-- One run of the latest revision's `typing_loop` task that performed
`iters` typing assertions before the cancellation was delivered at an
await point: the `CancelledError` handler then sends exactly one final
"not typing" assertion. -/
def typingLoopTrace (iters : Nat) : List Action :=
  List.replicate iters Action.typingOn ++ [Action.typingOff]

/-- Result of one callback run: the ordered collaborator calls, the
history afterwards, and the exception escaping the callback, if any. -/
structure CallbackResult where
  trace : List Action
  history : List Event
  escaped : Option PyErr
  deriving DecidableEq

/-- The latest revision's `message_callback`
(`src/src/nio_llm/client.py`), with the awaited completion call as a
parameter: `Except.error` models `acreate` raising.  Source order: the
four ignore guards; `history.append`; `room_read_markers` with both
markers set to the event id; the self guard; the mention guard; start the
`typing_loop` task; the completion call (on a raise the exception
propagates — nothing below runs, the task is never cancelled); send the
reply; cancel the task. -/
def messageCallback (c : ClientState) (roomId : String) (e : Event)
    (completion : Except PyErr String) : CallbackResult :=
  if e.serverTimestamp < c.spawnTime then ⟨[], c.history, none⟩
  else if roomId ≠ c.room then ⟨[], c.history, none⟩
  else if e.content.hasNewContent then ⟨[], c.history, none⟩
  else if isThreadV2 e.content then ⟨[], c.history, none⟩
  else
    let hist := recordEvent c.historySize c.history e
    let pre : List Action := [Action.readMarkers e.eventId e.eventId]
    if e.sender = c.uid then ⟨pre, hist, none⟩
    else if hasMention c.uid c.username e.content then
      let req := chatRequest c hist
      match completion with
      | .error err => ⟨pre ++ [Action.heartbeatStart, Action.completionCall req], hist, some err⟩
      | .ok raw =>
        ⟨pre ++ [Action.heartbeatStart, Action.completionCall req,
                 Action.sendMessage "m.text" (postV2 c.uid raw), Action.heartbeatStop],
         hist, none⟩
    else ⟨pre, hist, none⟩

/-- One history line of the middle revision's prompt: `"<SENDER>: BODY"`. -/
def promptLineMid (m : Event) : String := "<" ++ m.sender ++ ">: " ++ m.body

/-- The middle revision's flat prompt:
`"\n".join([preprompt, "\n".join(lines), "<UID>:"])`. -/
def promptMid (c : ClientState) (hist : List Event) : String :=
  c.preprompt ++ "\n" ++ String.intercalate "\n" (hist.map promptLineMid)
    ++ "\n" ++ ("<" ++ c.uid ++ ">:")

/-- The middle revision's stop markers passed to the llama call. -/
def stopMarkersMid (c : ClientState) (hist : List Event) : List String :=
  ("<" ++ c.uid ++ ">") :: "### Human" :: "### Assistant"
    :: hist.map (fun m => "<" ++ m.sender ++ ">")

/-- Middle-revision post-processing (the llama call echoes the prompt,
`echo=True`): `output.removeprefix(prompt).strip()`. -/
def postMid (prompt raw : String) : String :=
  pyStrip (pyRemovePre prompt raw)

/-- The middle revision's `message_callback` (`src/nio_llm/client.py`).
The tokenizer collaborator is the parameter `tokenCount` and the llama
call the parameter `llm`.  Source order: three ignore guards; the
unguarded thread test (may raise `KeyError`); `history.append` (capacity
hard-coded to 10); the self guard; the mention guard; prompt assembly and
the 512-token overflow check (send the fixed emote notice and return —
no llm call); typing on; the llm call (a raise propagates — typing is
never switched off); typing off; send the reply. -/
def messageCallbackMid (c : ClientState) (roomId : String) (e : Event)
    (tokenCount : String → Nat) (llm : Except PyErr String) : CallbackResult :=
  if e.serverTimestamp < c.spawnTime then ⟨[], c.history, none⟩
  else if roomId ≠ c.room then ⟨[], c.history, none⟩
  else if e.content.hasNewContent then ⟨[], c.history, none⟩
  else
    match isThreadMid e.content with
    | .error err => ⟨[], c.history, some err⟩
    | .ok true => ⟨[], c.history, none⟩
    | .ok false =>
      let hist := recordEvent 10 c.history e
      if e.sender = c.uid then ⟨[], hist, none⟩
      else if hasMention c.uid c.username e.content then
        let prompt := promptMid c hist
        if 512 < tokenCount prompt then
          ⟨[Action.sendMessage "m.emote" "reached prompt token limit"], hist, none⟩
        else
          match llm with
          | .error err => ⟨[Action.typingOn, Action.llmCall prompt], hist, some err⟩
          | .ok raw =>
            ⟨[Action.typingOn, Action.llmCall prompt, Action.typingOff,
              Action.sendMessage "m.text" (postMid prompt raw)], hist, none⟩
      else ⟨[], hist, none⟩

/-- Content carrying a well-formed HTML mention of the bot. -/
def contentMention (uid username : String) : Content :=
  { hasNewContent := false
    relatesTo := none
    format := some "org.matrix.custom.html"
    formattedBody := some ("hey " ++ mentionAnchor uid username) }

/-- A concrete client: bot `@bot:example.org` in room `!room:srv`,
spawned at time 0, empty history. -/
def cEx : ClientState :=
  { uid := "@bot:example.org"
    username := "bot"
    room := "!room:srv"
    spawnTime := 0
    preprompt := "You are bot."
    historySize := 10
    history := [] }

/-- A concrete post-spawn event mentioning the bot. -/
def eEx : Event :=
  { sender := "@alice:example.org"
    body := "hello"
    serverTimestamp := 5
    eventId := "$e1"
    content := contentMention "@bot:example.org" "bot" }

/-- Scenario A's event: sender `@alice`, body `"hello"`, mentioning the
bot. -/
def eAlice : Event :=
  { sender := "@alice"
    body := "hello"
    serverTimestamp := 1
    eventId := "$a"
    content := contentMention "@bot:example.org" "bot" }

/-- An event whose content carries `m.relates_to` without a `rel_type`
key (the shape of an ordinary rich reply), post-spawn, in the monitored
room. -/
def eBadRel : Event :=
  { sender := "@alice:example.org"
    body := "see above"
    serverTimestamp := 5
    eventId := "$r1"
    content :=
      { hasNewContent := false
        relatesTo := some { relType := none }
        format := none
        formattedBody := none } }

/-- Content with none of the optional keys. -/
def contentPlain : Content :=
  { hasNewContent := false, relatesTo := none, format := none, formattedBody := none }

/-- A concrete event pre-dating `cEx`'s spawn time. -/
def ePre : Event :=
  { sender := "@alice:example.org"
    body := "old"
    serverTimestamp := -3
    eventId := "$p1"
    content := contentMention "@bot:example.org" "bot" }

/-- A concrete post-spawn event authored by the bot itself. -/
def eSelf : Event :=
  { sender := "@bot:example.org"
    body := "note"
    serverTimestamp := 7
    eventId := "$s1"
    content := contentPlain }

/-- A second and third concrete event, for history-eviction scenarios. -/
def eB : Event :=
  { sender := "@bob:example.org", body := "two", serverTimestamp := 8,
    eventId := "$b1", content := contentPlain }

def eC : Event :=
  { sender := "@carol:example.org", body := "three", serverTimestamp := 9,
    eventId := "$c1", content := contentPlain }

theorem recordEvent_eq (n : Nat) (h : List Event) (e : Event) :
    recordEvent n h e = (h ++ [e]).drop (h.length + 1 - n) := by
  unfold recordEvent
  by_cases hc : n < (h ++ [e]).length
  · rw [if_pos hc]
    simp
  · rw [if_neg hc]
    have h1 : (h ++ [e]).length = h.length + 1 := by simp
    have h2 : h.length + 1 - n = 0 := by omega
    simp [h2]

theorem foldl_recordEvent (n : Nat) :
    ∀ (es h : List Event), h.length ≤ n →
      List.foldl (recordEvent n) h es = (h ++ es).drop (h.length + es.length - n) := by
  intro es
  induction es with
  | nil =>
    intro h hle
    simp [Nat.sub_eq_zero_of_le hle]
  | cons e tl ih =>
    intro h hle
    have hrec := recordEvent_eq n h e
    have hlen : (recordEvent n h e).length = h.length + 1 - (h.length + 1 - n) := by
      rw [hrec]; simp
    have hle2 : (recordEvent n h e).length ≤ n := by omega
    rw [List.foldl_cons, ih _ hle2, hrec]
    have hdle : h.length + 1 - n ≤ (h ++ [e]).length := by simp
    rw [List.length_drop, ← List.drop_append_of_le_length hdle, List.drop_drop]
    have harith : (h ++ [e]).length = h.length + 1 := by simp
    have : h.length + 1 - n + ((h ++ [e]).length - (h.length + 1 - n) + tl.length - n)
        = h.length + (e :: tl).length - n := by
      simp only [harith, List.length_cons]; omega
    rw [this, List.append_assoc]
    rfl

end NioLLM

namespace NioLLM

/-- Claim C3: every event whose server timestamp is earlier than the
client's spawn time is ignored, regardless of content or sender: the
admission decision is `Ignore`, and the callback (in the latest, middle
and earliest revisions alike) performs no collaborator call, records
nothing, and raises nothing. -/
theorem prespawn_ignored (c : ClientState) (roomId : String) (e : Event)
    (res : Except PyErr String) (tc : String → Nat)
    (h : e.serverTimestamp < c.spawnTime) :
    admission c roomId e = AdmissionDecision.Ignore ∧
    messageCallback c roomId e res = ⟨[], c.history, none⟩ ∧
    messageCallbackMid c roomId e tc res = ⟨[], c.history, none⟩ ∧
    (e.sender ≠ c.uid → admissionEarliest c roomId e = AdmissionDecision.Ignore) ∧
    (e.sender = c.uid → admissionEarliest c roomId e = AdmissionDecision.Ignore) := by
  refine ⟨?_, ?_, ?_, ?_, ?_⟩
  · simp [admission, h]
  · simp [messageCallback, h]
  · simp [messageCallbackMid, h]
  · intro hs; simp [admissionEarliest, h, hs]
  · intro hs; simp [admissionEarliest, hs]

/-- Witness for C3 at a concrete pre-spawn event. -/
theorem prespawn_ignored_witness :
    admission cEx "!room:srv" ePre = AdmissionDecision.Ignore ∧
    messageCallback cEx "!room:srv" ePre (Except.ok "x") = ⟨[], [], none⟩ := by
  have h := prespawn_ignored cEx "!room:srv" ePre (Except.ok "x") (fun _ => 0) (by decide)
  exact ⟨h.1, h.2.1⟩

/-- Claim C4: a self-authored event that survives the earlier filters
(post-spawn, monitored room, not an edit, not a thread reply) is recorded
into history but never answered: the decision is `RecordOnly`, never
`RecordAndRespond`, and the callback performs no heartbeat, completion or
publish action. -/
theorem self_record_only (c : ClientState) (roomId : String) (e : Event)
    (res : Except PyErr String)
    (h1 : ¬ e.serverTimestamp < c.spawnTime) (h2 : roomId = c.room)
    (h3 : e.content.hasNewContent = false) (h4 : isThreadV2 e.content = false)
    (h5 : e.sender = c.uid) :
    admission c roomId e = AdmissionDecision.RecordOnly ∧
    admission c roomId e ≠ AdmissionDecision.RecordAndRespond ∧
    messageCallback c roomId e res =
      ⟨[Action.readMarkers e.eventId e.eventId],
       recordEvent c.historySize c.history e, none⟩ ∧
    (∀ tc : String → Nat, isThreadMid e.content = Except.ok false →
      messageCallbackMid c roomId e tc res = ⟨[], recordEvent 10 c.history e, none⟩) := by
  refine ⟨?_, ?_, ?_, ?_⟩
  · simp [admission, h1, h2, h3, h4, h5]
  · simp [admission, h1, h2, h3, h4, h5]
  · simp [messageCallback, h1, h2, h3, h4, h5]
  · intro tc h6
    simp [messageCallbackMid, h1, h2, h3, h5, h6]

/-- Witness for C4 at a concrete self-authored event. -/
theorem self_record_only_witness :
    admission cEx "!room:srv" eSelf = AdmissionDecision.RecordOnly ∧
    messageCallback cEx "!room:srv" eSelf (Except.ok "x") =
      ⟨[Action.readMarkers "$s1" "$s1"], [eSelf], none⟩ := by
  have h := self_record_only cEx "!room:srv" eSelf (Except.ok "x")
    (by decide) (by decide) (by decide) (by decide) (by decide)
  exact ⟨h.1, h.2.2.1⟩

/-- Claim C5: the history never exceeds the capacity `n`; recording a
sequence of events into an empty history keeps exactly the most recent
`n` of them, in their original relative order (tail append, oldest-first
eviction, no reordering, no deduplication); in particular after `n + 1`
records the buffer is exactly the original sequence minus its first
entry. -/
theorem history_capacity_fifo (n : Nat) (es : List Event) :
    (List.foldl (recordEvent n) [] es).length ≤ n ∧
    List.foldl (recordEvent n) [] es = es.drop (es.length - n) ∧
    (es.length = n + 1 → List.foldl (recordEvent n) [] es = es.drop 1) := by
  have h := foldl_recordEvent n es [] (by simp)
  simp only [List.nil_append, List.length_nil, Nat.zero_add] at h
  refine ⟨?_, h, ?_⟩
  · rw [h, List.length_drop]; omega
  · intro hlen; rw [h, hlen]; simp

/-- Witness for C5: capacity 2, three records — the first entry is
evicted and the other two remain in order. -/
theorem history_capacity_fifo_witness :
    List.foldl (recordEvent 2) [] [eEx, eB, eC] = [eB, eC] := by
  have h := (history_capacity_fifo 2 [eEx, eB, eC]).2.2 (by decide)
  exact h

/-- Claim C10 (implicit): the callback advances the room read marker
(both the fully-read and the read marker, to the event's id) exactly for
the events it records, and it does so first — before the self-authorship
and mention checks — so recorded-but-unanswered events are still marked
read, while ignored events never advance the marker. -/
theorem read_marker_iff_recorded (c : ClientState) (roomId : String) (e : Event)
    (res : Except PyErr String) :
    (admission c roomId e = AdmissionDecision.Ignore →
      messageCallback c roomId e res = ⟨[], c.history, none⟩) ∧
    (admission c roomId e ≠ AdmissionDecision.Ignore →
      (messageCallback c roomId e res).history = recordEvent c.historySize c.history e ∧
      (messageCallback c roomId e res).trace.head? =
        some (Action.readMarkers e.eventId e.eventId)) := by
  by_cases h1 : e.serverTimestamp < c.spawnTime
  · simp [admission, messageCallback, h1]
  by_cases h2 : roomId = c.room
  · by_cases h3 : e.content.hasNewContent
    · simp [admission, messageCallback, h1, h2, h3]
    · by_cases h4 : isThreadV2 e.content
      · simp [admission, messageCallback, h1, h2, h3, h4]
      · by_cases h5 : e.sender = c.uid
        · simp [admission, messageCallback, h1, h2, h3, h4, h5]
        · by_cases h6 : hasMention c.uid c.username e.content
          · cases res <;> simp [admission, messageCallback, h1, h2, h3, h4, h5, h6]
          · simp [admission, messageCallback, h1, h2, h3, h4, h5, h6]
  · simp [admission, messageCallback, h1, h2]

/-- Witness for C10: an event in another room advances no marker; a
recorded event's first action is the read-marker update with both markers
set to its id. -/
theorem read_marker_iff_recorded_witness :
    messageCallback cEx "!other:srv" eEx (Except.ok "y") = ⟨[], [], none⟩ ∧
    (messageCallback cEx "!room:srv" eEx (Except.ok "y")).trace.head? =
      some (Action.readMarkers "$e1" "$e1") :=
  ⟨(read_marker_iff_recorded cEx "!other:srv" eEx (Except.ok "y")).1 (by decide),
   ((read_marker_iff_recorded cEx "!room:srv" eEx (Except.ok "y")).2 (by decide)).2⟩

/-- Claim C6: in the revision that measures the prompt (the middle one —
the only revision with a tokenizer collaborator), a triggering event
whose assembled prompt exceeds the 512-token budget makes the callback
send the fixed short emote notice `"reached prompt token limit"` and
return without ever invoking the llama completion collaborator. -/
theorem overflow_notice_no_completion (c : ClientState) (roomId : String) (e : Event)
    (tc : String → Nat) (llm : Except PyErr String)
    (h1 : ¬ e.serverTimestamp < c.spawnTime) (h2 : roomId = c.room)
    (h3 : e.content.hasNewContent = false) (h4 : isThreadMid e.content = Except.ok false)
    (h5 : e.sender ≠ c.uid) (h6 : hasMention c.uid c.username e.content = true)
    (h7 : 512 < tc (promptMid c (recordEvent 10 c.history e))) :
    messageCallbackMid c roomId e tc llm =
      ⟨[Action.sendMessage "m.emote" "reached prompt token limit"],
       recordEvent 10 c.history e, none⟩ ∧
    (∀ p, Action.llmCall p ∉ (messageCallbackMid c roomId e tc llm).trace) := by
  have hmain : messageCallbackMid c roomId e tc llm =
      ⟨[Action.sendMessage "m.emote" "reached prompt token limit"],
       recordEvent 10 c.history e, none⟩ := by
    simp [messageCallbackMid, h1, h2, h3, h4, h5, h6, h7]
  refine ⟨hmain, ?_⟩
  intro p
  rw [hmain]
  simp

/-- Witness for C6: a concrete triggering event with a tokenizer
reporting 513 tokens. -/
theorem overflow_notice_no_completion_witness :
    messageCallbackMid cEx "!room:srv" eEx (fun _ => 513) (Except.ok "x") =
      ⟨[Action.sendMessage "m.emote" "reached prompt token limit"], [eEx], none⟩ :=
  (overflow_notice_no_completion cEx "!room:srv" eEx (fun _ => 513) (Except.ok "x")
    (by decide) (by decide) (by decide) rfl (by decide) (by decide) (by decide)).1

/-- Claim C7: the claim says malformed content never raises a fault.
The latest revision satisfies it — its checks guard every key, so
`eBadRel` (whose content has `m.relates_to` without `rel_type`) is
classified as not-a-thread and, lacking the mention fields, as mention
absent (`RecordOnly`).  But the middle revision's thread test accesses
`["rel_type"]` unguarded, so the very same event makes a `KeyError`
escape `message_callback` — the slip the latest revision fixes by adding
the `"rel_type" in ...` guard. -/
theorem malformed_relates_to_keyerror :
    isThreadMid eBadRel.content = Except.error PyErr.keyError ∧
    (messageCallbackMid cEx "!room:srv" eBadRel (fun _ => 0) (Except.ok "x")).escaped
      = some PyErr.keyError ∧
    (messageCallbackMid cEx "!room:srv" eBadRel (fun _ => 0) (Except.ok "x")).trace = [] ∧
    isThreadV2 eBadRel.content = false ∧
    hasMention cEx.uid cEx.username eBadRel.content = false ∧
    admission cEx "!room:srv" eBadRel = AdmissionDecision.RecordOnly := by
  refine ⟨rfl, rfl, rfl, rfl, rfl, by decide⟩

/-- Claim C8: the latest revision's completion payload has exactly one
turn per history entry, in history order, role `assistant` exactly when
the sender is the bot's own identity and `user` otherwise, each turn's
text being `"SENDER: BODY"`; and in scenario A (empty history, `@alice`
saying "hello" with a mention) the recorded history is `[eAlice]` and the
turns are exactly `[(user, "@alice: hello")]` after the system turn. -/
theorem prompt_turns (c : ClientState) (roomId : String) (e : Event) (raw : String)
    (h1 : ¬ e.serverTimestamp < c.spawnTime) (h2 : roomId = c.room)
    (h3 : e.content.hasNewContent = false) (h4 : isThreadV2 e.content = false)
    (h5 : e.sender ≠ c.uid) (h6 : hasMention c.uid c.username e.content = true) :
    (Action.completionCall (chatRequest c (recordEvent c.historySize c.history e))
        ∈ (messageCallback c roomId e (Except.ok raw)).trace) ∧
    (∀ hist : List Event, (chatMessages c hist).length = hist.length + 1) ∧
    (∀ (hist : List Event) (i : Nat) (ev : Event), hist[i]? = some ev →
      (chatMessages c hist)[i + 1]? =
        some { role := if ev.sender = c.uid then Role.assistant else Role.user
               content := ev.sender ++ ": " ++ ev.body }) ∧
    (admission cEx "!room:srv" eAlice = AdmissionDecision.RecordAndRespond ∧
     (messageCallback cEx "!room:srv" eAlice (Except.ok "r")).history = [eAlice] ∧
     chatMessages cEx [eAlice] =
       [{ role := Role.system, content := "You are bot." },
        { role := Role.user, content := "@alice: hello" }]) := by
  refine ⟨?_, ?_, ?_, ?_, ?_, ?_⟩
  · simp [messageCallback, h1, h2, h3, h4, h5, h6]
  · intro hist; simp [chatMessages]
  · intro hist i ev hev
    simp [chatMessages, hev, chatTurn]
  · decide
  · decide
  · decide

/-- Witness for C8 at the concrete triggering event `eEx`. -/
theorem prompt_turns_witness :
    (Action.completionCall (chatRequest cEx (recordEvent 10 [] eEx))
        ∈ (messageCallback cEx "!room:srv" eEx (Except.ok "ok")).trace) ∧
    chatMessages cEx [eAlice] =
      [{ role := Role.system, content := "You are bot." },
       { role := Role.user, content := "@alice: hello" }] := by
  have h := prompt_turns cEx "!room:srv" eEx "ok"
    (by decide) (by decide) (by decide) (by decide) (by decide) (by decide)
  exact ⟨h.1, h.2.2.2.2.2⟩

/-- Claim C1, counterexample: at a concrete triggering event whose
completion call fails, the latest revision starts the heartbeat task but
never cancels it (there is no try/finally around `acreate`), publishes
nothing, and lets the exception escape the callback — so the heartbeat is
left dangling on the error exit path, refuting "stopped exactly once on
every exit path". -/
theorem heartbeat_dangling_on_error :
    messageCallback cEx "!room:srv" eEx (Except.error PyErr.completionError) =
      ⟨[Action.readMarkers "$e1" "$e1", Action.heartbeatStart,
        Action.completionCall (chatRequest cEx [eEx])],
       [eEx], some PyErr.completionError⟩ ∧
    Action.heartbeatStop ∉
      (messageCallback cEx "!room:srv" eEx (Except.error PyErr.completionError)).trace := by
  decide

/-- Claim C1, amended: on the success path the heartbeat is started and
stopped exactly once, and a cancelled `typing_loop` makes exactly one
final "not typing" assertion, as its last action; but when the completion
call fails, no reply is published and the heartbeat is NOT stopped — the
cancellation is skipped and the exception escapes the callback. -/
theorem heartbeat_discipline (c : ClientState) (roomId : String) (e : Event)
    (raw : String) (err : PyErr)
    (h1 : ¬ e.serverTimestamp < c.spawnTime) (h2 : roomId = c.room)
    (h3 : e.content.hasNewContent = false) (h4 : isThreadV2 e.content = false)
    (h5 : e.sender ≠ c.uid) (h6 : hasMention c.uid c.username e.content = true) :
    ((messageCallback c roomId e (Except.ok raw)).trace.count Action.heartbeatStart = 1 ∧
     (messageCallback c roomId e (Except.ok raw)).trace.count Action.heartbeatStop = 1 ∧
     (messageCallback c roomId e (Except.ok raw)).escaped = none) ∧
    ((messageCallback c roomId e (Except.error err)).trace.count Action.heartbeatStart = 1 ∧
     (messageCallback c roomId e (Except.error err)).trace.count Action.heartbeatStop = 0 ∧
     (∀ mt b, Action.sendMessage mt b ∉ (messageCallback c roomId e (Except.error err)).trace) ∧
     (messageCallback c roomId e (Except.error err)).escaped = some err) ∧
    (∀ k, (typingLoopTrace k).count Action.typingOff = 1 ∧
      (typingLoopTrace k).getLast? = some Action.typingOff) := by
  have hok : messageCallback c roomId e (Except.ok raw) =
      ⟨[Action.readMarkers e.eventId e.eventId, Action.heartbeatStart,
        Action.completionCall (chatRequest c (recordEvent c.historySize c.history e)),
        Action.sendMessage "m.text" (postV2 c.uid raw), Action.heartbeatStop],
       recordEvent c.historySize c.history e, none⟩ := by
    simp [messageCallback, h1, h2, h3, h4, h5, h6]
  have herr : messageCallback c roomId e (Except.error err) =
      ⟨[Action.readMarkers e.eventId e.eventId, Action.heartbeatStart,
        Action.completionCall (chatRequest c (recordEvent c.historySize c.history e))],
       recordEvent c.historySize c.history e, some err⟩ := by
    simp [messageCallback, h1, h2, h3, h4, h5, h6]
  refine ⟨?_, ?_, ?_⟩
  · rw [hok]
    refine ⟨?_, ?_, rfl⟩ <;> simp [List.count_cons, List.count_nil]
  · rw [herr]
    refine ⟨?_, ?_, ?_, rfl⟩
    · simp [List.count_cons, List.count_nil]
    · simp [List.count_cons, List.count_nil]
    · intro mt b; simp
  · intro k
    constructor
    · simp [typingLoopTrace, List.count_append, List.count_replicate]
    · simp [typingLoopTrace, List.getLast?_concat]

/-- Witness for C1's amended statement at the concrete triggering
event. -/
theorem heartbeat_discipline_witness :
    (messageCallback cEx "!room:srv" eEx (Except.ok "y")).trace.count
      Action.heartbeatStop = 1 ∧
    (messageCallback cEx "!room:srv" eEx (Except.error PyErr.completionError)).trace.count
      Action.heartbeatStop = 0 ∧
    (typingLoopTrace 3).getLast? = some Action.typingOff := by
  have h := heartbeat_discipline cEx "!room:srv" eEx "y" PyErr.completionError
    (by decide) (by decide) (by decide) (by decide) (by decide) (by decide)
  exact ⟨h.1.2.1, h.2.1.2.1, (h.2.2 3).2⟩

/-- Claim C2, counterexample: at a concrete successful generation in the
latest revision, the reply is sent (trace position 3) strictly BEFORE the
heartbeat task is cancelled (trace position 4), and the callback itself
never asserts "not typing" — the final not-typing assertion can only come
from the loop after the cancellation, hence after publication.  This
refutes "heartbeat stop strictly precedes reply publication". -/
theorem reply_before_heartbeat_stop :
    (messageCallback cEx "!room:srv" eEx (Except.ok "hi")).trace =
      [Action.readMarkers "$e1" "$e1", Action.heartbeatStart,
       Action.completionCall (chatRequest cEx [eEx]),
       Action.sendMessage "m.text" "hi", Action.heartbeatStop] ∧
    Action.typingOff ∉ (messageCallback cEx "!room:srv" eEx (Except.ok "hi")).trace := by
  decide

/-- Claim C2, amended: in the middle revision (inline typing calls) the
final "not typing" assertion is the only such assertion, the last
typing-related assertion made, and it strictly precedes publication of
the reply; in the latest (task-based) revision, the reply publication
instead strictly precedes the heartbeat cancellation. -/
theorem typing_off_before_reply (c : ClientState) (roomId : String) (e : Event)
    (raw : String) (tc : String → Nat)
    (h1 : ¬ e.serverTimestamp < c.spawnTime) (h2 : roomId = c.room)
    (h3 : e.content.hasNewContent = false) (h4 : isThreadMid e.content = Except.ok false)
    (h4v : isThreadV2 e.content = false)
    (h5 : e.sender ≠ c.uid) (h6 : hasMention c.uid c.username e.content = true)
    (h7 : ¬ 512 < tc (promptMid c (recordEvent 10 c.history e))) :
    ((messageCallbackMid c roomId e tc (Except.ok raw)).trace.filter isTypingAssertion
        = [Action.typingOn, Action.typingOff] ∧
     (messageCallbackMid c roomId e tc (Except.ok raw)).trace.drop 2
        = [Action.typingOff,
           Action.sendMessage "m.text"
             (postMid (promptMid c (recordEvent 10 c.history e)) raw)]) ∧
    (messageCallback c roomId e (Except.ok raw)).trace.drop 3
        = [Action.sendMessage "m.text" (postV2 c.uid raw), Action.heartbeatStop] := by
  have hmid : messageCallbackMid c roomId e tc (Except.ok raw) =
      ⟨[Action.typingOn, Action.llmCall (promptMid c (recordEvent 10 c.history e)),
        Action.typingOff,
        Action.sendMessage "m.text"
          (postMid (promptMid c (recordEvent 10 c.history e)) raw)],
       recordEvent 10 c.history e, none⟩ := by
    simp [messageCallbackMid, h1, h2, h3, h4, h5, h6, h7]
  have hv2 : messageCallback c roomId e (Except.ok raw) =
      ⟨[Action.readMarkers e.eventId e.eventId, Action.heartbeatStart,
        Action.completionCall (chatRequest c (recordEvent c.historySize c.history e)),
        Action.sendMessage "m.text" (postV2 c.uid raw), Action.heartbeatStop],
       recordEvent c.historySize c.history e, none⟩ := by
    simp [messageCallback, h1, h2, h3, h4v, h5, h6]
  refine ⟨⟨?_, ?_⟩, ?_⟩
  · rw [hmid]; rfl
  · rw [hmid]; rfl
  · rw [hv2]; rfl

/-- Witness for C2's amended statement at the concrete triggering
event. -/
theorem typing_off_before_reply_witness :
    (messageCallbackMid cEx "!room:srv" eEx (fun _ => 100) (Except.ok "yo")).trace.filter
        isTypingAssertion = [Action.typingOn, Action.typingOff] ∧
    (messageCallback cEx "!room:srv" eEx (Except.ok "yo")).trace.drop 3
        = [Action.sendMessage "m.text" "yo", Action.heartbeatStop] := by
  have h := typing_off_before_reply cEx "!room:srv" eEx "yo" (fun _ => 100)
    (by decide) (by decide) (by decide) rfl (by decide) (by decide) (by decide)
    (by decide)
  exact ⟨h.1.1, h.2⟩

end NioLLM

namespace NioLLM

theorem string_data_append (a b : String) : (a ++ b).data = a.data ++ b.data := by
  cases a; cases b; rfl

theorem label_data (uid : String) : (uid ++ ":").data = uid.data ++ [':'] := by
  rw [string_data_append]

theorem dropWhile_self_idem (p : α → Bool) (l : List α) :
    (l.dropWhile p).dropWhile p = l.dropWhile p := by
  induction l with
  | nil => rfl
  | cons c t ih =>
    by_cases h : p c
    · simp [List.dropWhile_cons, h, ih]
    · simp [List.dropWhile_cons, h]

theorem stripL_cons_neg {c : Char} {t : List Char} (h : c.isWhitespace = false) :
    stripL (c :: t) = c :: t := by
  simp [stripL, List.dropWhile_cons, h]

theorem stripL_cons_pos {c : Char} {t : List Char} (h : c.isWhitespace = true) :
    stripL (c :: t) = stripL t := by
  simp [stripL, List.dropWhile_cons, h]

theorem stripL_idem (l : List Char) : stripL (stripL l) = stripL l :=
  dropWhile_self_idem _ l

theorem stripR_append_right {a b : List Char} (h : stripR b ≠ []) :
    stripR (a ++ b) = a ++ stripR b := by
  unfold stripR at h ⊢
  have hne : b.reverse.dropWhile Char.isWhitespace ≠ [] := by
    intro hnil
    apply h
    rw [hnil]
    rfl
  rw [List.reverse_append, List.dropWhile_append, if_neg (by simp [hne])]
  rw [List.reverse_append, List.reverse_reverse]

theorem stripR_append_allws {a b : List Char} (h : stripR b = []) :
    stripR (a ++ b) = stripR a := by
  unfold stripR at h ⊢
  rw [List.reverse_eq_nil_iff] at h
  rw [List.reverse_append, List.dropWhile_append, if_pos (by simp [h])]

theorem stripR_concat_nonws {a : List Char} {c : Char} (h : c.isWhitespace = false) :
    stripR (a ++ [c]) = a ++ [c] := by
  unfold stripR
  rw [List.reverse_append]
  simp [List.dropWhile_cons, h]

theorem stripR_cons (c : Char) (t : List Char) :
    stripR (c :: t) =
      if stripR t = [] then (if c.isWhitespace then [] else [c]) else c :: stripR t := by
  by_cases ht : stripR t = []
  · rw [if_pos ht, show (c :: t) = [c] ++ t from rfl, stripR_append_allws ht]
    by_cases hc : c.isWhitespace
    · rw [if_pos hc]
      unfold stripR
      simp [List.dropWhile_cons, hc]
    · rw [if_neg hc]
      unfold stripR
      simp [List.dropWhile_cons, hc]
  · rw [if_neg ht, show (c :: t) = [c] ++ t from rfl, stripR_append_right ht]
    rfl

theorem stripR_eq_nil_stripL {t : List Char} (h : stripR t = []) : stripL t = [] := by
  unfold stripR at h
  rw [List.reverse_eq_nil_iff, List.dropWhile_eq_nil_iff] at h
  unfold stripL
  rw [List.dropWhile_eq_nil_iff]
  intro x hx
  exact h x (List.mem_reverse.mpr hx)

theorem stripL_stripR_comm (l : List Char) : stripL (stripR l) = stripR (stripL l) := by
  induction l with
  | nil => rfl
  | cons c t ih =>
    by_cases hc : c.isWhitespace
    · rw [stripL_cons_pos hc, stripR_cons]
      by_cases ht : stripR t = []
      · rw [if_pos ht, if_pos hc, ← ih, ht]
      · rw [if_neg ht, stripL_cons_pos hc]
        exact ih
    · have hc' : c.isWhitespace = false := by simpa using hc
      rw [stripL_cons_neg hc', stripR_cons]
      by_cases ht : stripR t = []
      · rw [if_pos ht, if_neg hc]
        exact stripL_cons_neg hc'
      · rw [if_neg ht]
        exact stripL_cons_neg hc'

theorem stripR_idem (l : List Char) : stripR (stripR l) = stripR l := by
  unfold stripR
  rw [List.reverse_reverse, dropWhile_self_idem]

theorem pyStrip_idem (s : String) : pyStrip (pyStrip s) = pyStrip s := by
  unfold pyStrip
  show String.mk (stripR (stripL (stripR (stripL s.data))))
      = String.mk (stripR (stripL s.data))
  rw [stripL_stripR_comm, stripL_idem, stripR_idem]

theorem isPrefixOf_append_self (p q : List Char) : p.isPrefixOf (p ++ q) = true := by
  induction p with
  | nil => simp [List.isPrefixOf]
  | cons a as ih => simp [List.isPrefixOf, ih]

theorem postV2_label (uid rest : String)
    (hw : ∀ ch, (uid ++ ":").data.head? = some ch → ch.isWhitespace = false) :
    postV2 uid ((uid ++ ":") ++ rest) = pyStrip rest := by
  have hdata : ((uid ++ ":") ++ rest).data = (uid.data ++ [':']) ++ rest.data := by
    rw [string_data_append, label_data]
  have hhead : ∀ ch, (uid.data ++ [':']).head? = some ch → ch.isWhitespace = false := by
    intro ch hch
    apply hw
    rw [label_data]
    exact hch
  have hL : stripL ((uid.data ++ [':']) ++ rest.data) = (uid.data ++ [':']) ++ rest.data := by
    cases hu : uid.data with
    | nil =>
      simp only [List.nil_append, List.singleton_append]
      exact stripL_cons_neg (by decide)
    | cons c t =>
      have hc : c.isWhitespace = false := hhead c (by rw [hu]; rfl)
      rw [show ((c :: t) ++ [':']) ++ rest.data = c :: ((t ++ [':']) ++ rest.data) by simp]
      exact stripL_cons_neg hc
  by_cases hr : stripR rest.data = []
  · have hPS : pyStrip ((uid ++ ":") ++ rest) = String.mk (uid.data ++ [':']) := by
      unfold pyStrip
      rw [hdata, hL, stripR_append_allws hr, stripR_concat_nonws (by decide)]
    unfold postV2
    rw [hPS]
    unfold pyRemovePre
    rw [label_data]
    rw [if_pos (by simp [List.isPrefixOf, isPrefixOf_append_self])]
    show pyStrip (String.mk ((uid.data ++ [':']).drop (uid.data ++ [':']).length)) = pyStrip rest
    rw [List.drop_length]
    have h2 : stripL rest.data = [] := stripR_eq_nil_stripL hr
    unfold pyStrip
    rw [h2]
    rfl
  · have hPS : pyStrip ((uid ++ ":") ++ rest)
        = String.mk ((uid.data ++ [':']) ++ stripR rest.data) := by
      unfold pyStrip
      rw [hdata, hL, stripR_append_right hr]
    unfold postV2
    rw [hPS]
    unfold pyRemovePre
    rw [label_data]
    rw [if_pos (isPrefixOf_append_self _ _)]
    show pyStrip (String.mk (((uid.data ++ [':']) ++ stripR rest.data).drop
        (uid.data ++ [':']).length)) = pyStrip rest
    rw [List.drop_left]
    unfold pyStrip
    show String.mk (stripR (stripL (stripR rest.data))) = String.mk (stripR (stripL rest.data))
    rw [stripL_stripR_comm, stripR_idem]

theorem postV2_no_label (uid raw : String)
    (h : (uid ++ ":").data.isPrefixOf (pyStrip raw).data = false) :
    postV2 uid raw = pyStrip raw := by
  unfold postV2 pyRemovePre
  simp only [h, Bool.false_eq_true, if_false]
  exact pyStrip_idem raw

/-- Claim C9: the published reply is the raw backend output with (middle
revision, which requests `echo=True`) the literal prompt echo stripped
and the result trimmed — the prompt ends with the bot's own identity
label `<UID>:`, so the label goes with the echo — and (latest revision)
a leading `UID:` self-identity label stripped and surrounding whitespace
trimmed; raw output not starting with the label is only trimmed. -/
theorem reply_postprocessing :
    (∀ p completion : String, postMid p (p ++ completion) = pyStrip completion) ∧
    (∀ (c : ClientState) (hist : List Event), ∃ pre : String,
        promptMid c hist = pre ++ ("<" ++ c.uid ++ ">:")) ∧
    (∀ uid rest : String,
        (∀ ch, (uid ++ ":").data.head? = some ch → ch.isWhitespace = false) →
        postV2 uid ((uid ++ ":") ++ rest) = pyStrip rest) ∧
    (∀ uid raw : String,
        (uid ++ ":").data.isPrefixOf (pyStrip raw).data = false →
        postV2 uid raw = pyStrip raw) := by
  refine ⟨?_, ?_, postV2_label, postV2_no_label⟩
  · intro p completion
    unfold postMid pyRemovePre
    rw [string_data_append, if_pos (isPrefixOf_append_self _ _), List.drop_left]
  · intro c hist
    exact ⟨_, rfl⟩

/-- Witness for C9: concrete echoed, labelled and label-free outputs. -/
theorem reply_postprocessing_witness :
    postMid "P:" ("P:" ++ " done ") = pyStrip " done " ∧
    postV2 "@bot:example.org" (("@bot:example.org" ++ ":") ++ " hey ") = pyStrip " hey " ∧
    postV2 "@bot:example.org" "no label here" = pyStrip "no label here" ∧
    pyStrip " done " = "done" ∧ pyStrip " hey " = "hey" ∧
    pyStrip "no label here" = "no label here" := by
  have h := reply_postprocessing
  refine ⟨h.1 "P:" " done ", ?_, ?_, by decide, by decide, by decide⟩
  · apply h.2.2.1
    intro ch hch
    have h2 : (some '@' : Option Char) = some ch := hch
    injection h2 with h3
    rw [← h3]
    decide
  · apply h.2.2.2
    decide

end NioLLM
